import Mathlib

/-!
Verification of the drf-deny-allow permission-composition layer
(`drfdapc/permissions.py`): predicate functions, the
`authenticated_users` guard decorator, the short-circuit OR evaluator
embedded in the permission classes, and the three method-dispatch
policy classes `DABasePermission`, `DARWBasePermission`,
`DACrudBasePermission`.

The embedding is shallow: Python objects supplied by the framework
(request, user, view, object) become Lean structures; functions that
can raise return `Except PyError Bool`; the dynamic calling convention
of the guard (positional args plus an optional `request` keyword) is
modelled explicitly, since its behaviour depends on it.
-/

/-- The identity attached to a request: the three boolean flags the
predicates read (`is_authenticated`, `is_staff`, `is_superuser`).
An anonymous user has `is_authenticated = false`. -/
structure User where
  is_authenticated : Bool
  is_staff : Bool
  is_superuser : Bool
deriving DecidableEq, Repr

/-- A framework request: the identity, the HTTP method string, and the
`META` header map (association list, as the permission layer only ever
calls `META.get`). -/
structure Request where
  user : User
  method : String
  META : List (String × String)
deriving DecidableEq, Repr

/-- Python `request.META.get(k)`: the value of the first entry with key
`k`, or the none value when the key is absent. -/
def Request.META_get (r : Request) (k : String) : Option String :=
  (r.META.find? (fun p => p.1 = k)).map Prod.snd

/-- The Python value found in `view.authorized_keys`: either a scalar
(not a tuple or list — fails the `isinstance` check) or a sequence of
entries, each a string or the none value. -/
inductive AuthKeysVal where
  | scalar (s : String)
  | seq (ks : List (Option String))
deriving DecidableEq, Repr

/-- A view handle; the permission layer reads only its
`authorized_keys` configuration attribute. -/
structure View where
  authorized_keys : AuthKeysVal
deriving DecidableEq, Repr

/-- An opaque target object for object-level checks; the layer only
passes it through to predicates. -/
structure Obj where
  ident : Nat
deriving DecidableEq, Repr

/-- The exceptions the layer can raise: `TypeError` (guard invoked with
no request, or double-bound argument), `AttributeError` (attribute
access on a non-request value), and Django `ImproperlyConfigured`. -/
inductive PyError where
  | typeError
  | attributeError
  | improperlyConfigured
deriving DecidableEq, Repr

/-- A Python value as it can appear among the guard call arguments:
the none value, another falsy value, or an actual request object
(framework request objects are truthy). -/
inductive PyVal where
  | vNone
  | vFalsy
  | vReq (r : Request)
deriving DecidableEq, Repr

/-- Python truthiness of the modelled values: request objects are
truthy, the none value and other falsy values are not. -/
def truthy : PyVal → Bool
  | .vNone => false
  | .vFalsy => false
  | .vReq _ => true

/-- The request selection of `authenticated_users.func_wrapper`
(permissions.py lines 56-61): if `kwargs.get("request")` is truthy use
it, elif there are positional args use the first, else no request is
obtainable. `kwreq` is the `request` keyword entry of `kwargs`
(`none` when absent); `kwargs.get` of an absent key yields the falsy
none value. -/
def selectRequest (args : List PyVal) (kwreq : Option PyVal) : Option PyVal :=
  if truthy (kwreq.getD .vNone) then kwreq else args.head?

/-- The type of the Python functions the guard wraps: variadic
callables receiving the positional arguments and the optional
`request` keyword (other keywords, such as `view`, are never read by
the wrapped bodies and are not modelled). -/
abbrev PyFn := List PyVal → Option PyVal → Except PyError Bool

/-- The `authenticated_users` decorator (permissions.py lines 41-68):
select the request from the call arguments, raising `TypeError` when
none is obtainable; return false without calling `func` when
`request.user.is_authenticated` is false; otherwise delegate to `func`
with the same arguments. Attribute access on a selected non-request
value raises. -/
def authenticated_users (func : PyFn) (args : List PyVal) (kwreq : Option PyVal) :
    Except PyError Bool :=
  match selectRequest args kwreq with
  | none => .error .typeError
  | some (.vReq r) =>
      if r.user.is_authenticated then func args kwreq else .ok false
  | some _ => .error .attributeError

/-- Python binding of a function whose first declared parameter is
`request` (with `*args, **kwargs` trailing), called with positional
`args` and the `request` keyword `kwreq`: a keyword together with a
positional first argument is a double binding (`TypeError`); with
neither, the required argument is missing (`TypeError`). -/
def pyBindFirst (args : List PyVal) (kwreq : Option PyVal) : Except PyError PyVal :=
  match kwreq, args with
  | some _, _ :: _ => .error .typeError
  | some v, [] => .ok v
  | none, a :: _ => .ok a
  | none, [] => .error .typeError

/-- The `deny_all` predicate (permissions.py line 71): returns false
for any arguments. -/
def deny_all (_args : List PyVal) (_kwreq : Option PyVal) : Except PyError Bool :=
  .ok false

/-- The `allow_all` predicate (permissions.py line 118): returns true
for any arguments. -/
def allow_all (_args : List PyVal) (_kwreq : Option PyVal) : Except PyError Bool :=
  .ok true

/-- The undecorated body of `allow_superuser` (line 94): binds
`request` and returns `request.user.is_superuser`. -/
def allow_superuser_body (args : List PyVal) (kwreq : Option PyVal) :
    Except PyError Bool :=
  match pyBindFirst args kwreq with
  | .error e => .error e
  | .ok (.vReq r) => .ok r.user.is_superuser
  | .ok _ => .error .attributeError

/-- Function `allow_superuser` (permissions.py lines 86-94): the superuser body
wrapped by `authenticated_users`. -/
def allow_superuser : PyFn := authenticated_users allow_superuser_body

/-- The undecorated body of `allow_staff` (line 104): binds `request`
and returns `request.user.is_staff`. -/
def allow_staff_body (args : List PyVal) (kwreq : Option PyVal) :
    Except PyError Bool :=
  match pyBindFirst args kwreq with
  | .error e => .error e
  | .ok (.vReq r) => .ok r.user.is_staff
  | .ok _ => .error .attributeError

/-- Function `allow_staff` (permissions.py lines 97-104): the staff body
wrapped by `authenticated_users`. -/
def allow_staff : PyFn := authenticated_users allow_staff_body

/-- The undecorated body of `allow_authenticated` (line 115): binds
`request` and returns true. -/
def allow_authenticated_body (args : List PyVal) (kwreq : Option PyVal) :
    Except PyError Bool :=
  match pyBindFirst args kwreq with
  | .error e => .error e
  | .ok _ => .ok true

/-- Function `allow_authenticated` (permissions.py lines 107-115): the
constant-true body wrapped by `authenticated_users`. -/
def allow_authenticated : PyFn := authenticated_users allow_authenticated_body

/-- Function `allow_authorized_key` (permissions.py lines 128-144): read the
`HTTP_AUTHORIZATION` header, raise `ImproperlyConfigured` when
`view.authorized_keys` is not a tuple or list, and return whether the
looked-up key is a member of the sequence. -/
def allow_authorized_key (request : Request) (view : View) : Except PyError Bool :=
  let key := request.META_get "HTTP_AUTHORIZATION"
  match view.authorized_keys with
  | .scalar _ => .error .improperlyConfigured
  | .seq ks => if ks.contains key then .ok true else .ok false

/-- A view-level predicate as stored in the permission lists and
invoked by the classes as `permission(request=request, view=view)`;
an exception it raises propagates. -/
abbrev Pred := Request → View → Except PyError Bool

/-- An object-level predicate, invoked as
`permission(request=request, view=view, obj=obj)`. -/
abbrev OPred := Request → View → Obj → Except PyError Bool

/-- The invocation shape the classes use for a view-level check on a
`PyFn` predicate: no positional arguments, the request passed by the
`request` keyword (the `view` keyword lands in the unused variadic
keywords). -/
def kwCall (f : PyFn) : Pred :=
  fun request _view => f [] (some (.vReq request))

/-- The invocation shape the classes use for an object-level check on
a `PyFn` predicate: as `kwCall`, with the `view` and `obj` keywords
landing in the unused variadic keywords. -/
def kwCallObj (f : PyFn) : OPred :=
  fun request _view _obj => f [] (some (.vReq request))

/-- The permission-list loop embedded in the class methods
(permissions.py lines 171-174 and its copies): iterate the predicates
in order, return true at the first predicate returning true, false
when the list is exhausted; an exception propagates. -/
def evalPerms : List Pred → Request → View → Except PyError Bool
  | [], _, _ => .ok false
  | p :: ps, request, view =>
      match p request view with
      | .error e => .error e
      | .ok true => .ok true
      | .ok false => evalPerms ps request view

/-- Instrumented copy of `evalPerms` that also counts how many
predicates of the list were invoked, to express the short-circuit
behaviour. -/
def evalPermsCount : List Pred → Request → View → Except PyError Bool × Nat
  | [], _, _ => (.ok false, 0)
  | p :: ps, request, view =>
      match p request view with
      | .error e => (.error e, 1)
      | .ok true => (.ok true, 1)
      | .ok false =>
          let rest := evalPermsCount ps request view
          (rest.1, rest.2 + 1)

/-- The object-level permission-list loop (permissions.py lines
189-192 and its copies). -/
def evalObjPerms : List OPred → Request → View → Obj → Except PyError Bool
  | [], _, _, _ => .ok false
  | p :: ps, request, view, obj =>
      match p request view obj with
      | .error e => .error e
      | .ok true => .ok true
      | .ok false => evalObjPerms ps request view obj

/-- Django REST framework `permissions.SAFE_METHODS`:
`("GET", "HEAD", "OPTIONS")`. -/
def SAFE_METHODS : List String := ["GET", "HEAD", "OPTIONS"]

/-- The configuration of `DABasePermission` (permissions.py lines
147-160): both predicate lists default to the singleton `deny_all`. -/
structure DABasePermission where
  rw_permissions : List Pred := [kwCall deny_all]
  object_rw_permissions : List OPred := [kwCallObj deny_all]

/-- Method `DABasePermission.has_permission` (lines 162-174): evaluate
`rw_permissions`, ignoring the method. -/
def DABasePermission.has_permission (self : DABasePermission)
    (request : Request) (view : View) : Except PyError Bool :=
  evalPerms self.rw_permissions request view

/-- Method `DABasePermission.has_object_permission` (lines 176-192): evaluate
`object_rw_permissions` with the target object passed through. -/
def DABasePermission.has_object_permission (self : DABasePermission)
    (request : Request) (view : View) (obj : Obj) : Except PyError Bool :=
  evalObjPerms self.object_rw_permissions request view obj

/-- The configuration of `DARWBasePermission` (lines 195-210): the
flat lists plus read/write splits, all defaulting to `deny_all`. -/
structure DARWBasePermission extends DABasePermission where
  read_permissions : List Pred := [kwCall deny_all]
  write_permissions : List Pred := [kwCall deny_all]
  object_read_permissions : List OPred := [kwCallObj deny_all]
  object_write_permissions : List OPred := [kwCallObj deny_all]

/-- Method `DARWBasePermission.has_permission` (lines 212-238): the
`rw_permissions` evaluation is a universal override; otherwise safe
methods evaluate `read_permissions` and all other methods evaluate
`write_permissions`. -/
def DARWBasePermission.has_permission (self : DARWBasePermission)
    (request : Request) (view : View) : Except PyError Bool :=
  match self.toDABasePermission.has_permission request view with
  | .error e => .error e
  | .ok true => .ok true
  | .ok false =>
      if SAFE_METHODS.contains request.method then
        evalPerms self.read_permissions request view
      else
        evalPerms self.write_permissions request view

/-- Method `DARWBasePermission.has_object_permission` (lines 240-272): the
same structure over the `object_*` lists with the object passed
through. -/
def DARWBasePermission.has_object_permission (self : DARWBasePermission)
    (request : Request) (view : View) (obj : Obj) : Except PyError Bool :=
  match self.toDABasePermission.has_object_permission request view obj with
  | .error e => .error e
  | .ok true => .ok true
  | .ok false =>
      if SAFE_METHODS.contains request.method then
        evalObjPerms self.object_read_permissions request view obj
      else
        evalObjPerms self.object_write_permissions request view obj

/-- The configuration of `DACrudBasePermission` (lines 275-306): the
flat lists plus the four CRUD splits, all defaulting to `deny_all`. -/
structure DACrudBasePermission extends DABasePermission where
  read_permissions : List Pred := [kwCall deny_all]
  add_permissions : List Pred := [kwCall deny_all]
  change_permissions : List Pred := [kwCall deny_all]
  delete_permissions : List Pred := [kwCall deny_all]
  object_read_permissions : List OPred := [kwCallObj deny_all]
  object_add_permissions : List OPred := [kwCallObj deny_all]
  object_change_permissions : List OPred := [kwCallObj deny_all]
  object_delete_permissions : List OPred := [kwCallObj deny_all]

/-- Method `DACrudBasePermission.has_permission` (lines 308-355): the
`rw_permissions` override, then exact-method dispatch (safe methods,
PUT/PATCH, POST, DELETE), with any other method falling through to
false. -/
def DACrudBasePermission.has_permission (self : DACrudBasePermission)
    (request : Request) (view : View) : Except PyError Bool :=
  match self.toDABasePermission.has_permission request view with
  | .error e => .error e
  | .ok true => .ok true
  | .ok false =>
      if SAFE_METHODS.contains request.method then
        evalPerms self.read_permissions request view
      else if ["PUT", "PATCH"].contains request.method then
        evalPerms self.change_permissions request view
      else if request.method = "POST" then
        evalPerms self.add_permissions request view
      else if request.method = "DELETE" then
        evalPerms self.delete_permissions request view
      else
        .ok false

/-- Method `DACrudBasePermission.has_object_permission` (lines 357-403): the
same dispatch shape over the `object_*` lists with the object passed
through. -/
def DACrudBasePermission.has_object_permission (self : DACrudBasePermission)
    (request : Request) (view : View) (obj : Obj) : Except PyError Bool :=
  match self.toDABasePermission.has_object_permission request view obj with
  | .error e => .error e
  | .ok true => .ok true
  | .ok false =>
      if SAFE_METHODS.contains request.method then
        evalObjPerms self.object_read_permissions request view obj
      else if ["PUT", "PATCH"].contains request.method then
        evalObjPerms self.object_change_permissions request view obj
      else if request.method = "POST" then
        evalObjPerms self.object_add_permissions request view obj
      else if request.method = "DELETE" then
        evalObjPerms self.object_delete_permissions request view obj
      else
        .ok false

/-- An anonymous identity. -/
def anonUser : User := { is_authenticated := false, is_staff := false, is_superuser := false }

/-- An authenticated staff-only (non-superuser) identity. -/
def staffUser : User := { is_authenticated := true, is_staff := true, is_superuser := false }

/-- An authenticated superuser-only (non-staff) identity. -/
def superOnlyUser : User := { is_authenticated := true, is_staff := false, is_superuser := true }

/-- A headerless GET request by the anonymous identity. -/
def anonGet : Request := { user := anonUser, method := "GET", META := [] }

/-- A headerless GET request by the staff identity. -/
def staffGet : Request := { user := staffUser, method := "GET", META := [] }

/-- A headerless POST request by the staff identity. -/
def staffPost : Request := { user := staffUser, method := "POST", META := [] }

/-- A headerless PUT request by the staff identity. -/
def staffPut : Request := { user := staffUser, method := "PUT", META := [] }

/-- A headerless GET request by the superuser-only identity. -/
def superGet : Request := { user := superOnlyUser, method := "GET", META := [] }

/-- A view whose `authorized_keys` is the two-key sequence `("K1", "K2")`. -/
def viewK12 : View := { authorized_keys := .seq [some "K1", some "K2"] }

/-- A view whose `authorized_keys` is a scalar string, not a sequence. -/
def viewScalar : View := { authorized_keys := .scalar "K1" }

/-- A view whose `authorized_keys` sequence contains the none value. -/
def viewNoneKey : View := { authorized_keys := .seq [Option.none] }

/-- A view with an empty key sequence, used where the view is irrelevant. -/
def view0 : View := { authorized_keys := .seq [] }

/-- A target object. -/
def obj0 : Obj := { ident := 0 }

/-- An anonymous GET request carrying Authorization header value "K1". -/
def reqK1 : Request :=
  { user := anonUser, method := "GET", META := [("HTTP_AUTHORIZATION", "K1")] }

/-- An anonymous GET request carrying Authorization header value "K2". -/
def reqK2 : Request :=
  { user := anonUser, method := "GET", META := [("HTTP_AUTHORIZATION", "K2")] }

/-- An anonymous GET request carrying the near-match header value "K1x"
(suffix mismatch against the configured key "K1"). -/
def reqK1x : Request :=
  { user := anonUser, method := "GET", META := [("HTTP_AUTHORIZATION", "K1x")] }

/-- Evaluating the default singleton deny-all list yields false. -/
theorem evalPerms_denyall (request : Request) (view : View) :
    evalPerms [kwCall deny_all] request view = .ok false := rfl

/-- Evaluating the default singleton object-level deny-all list yields
false. -/
theorem evalObjPerms_denyall (request : Request) (view : View) (obj : Obj) :
    evalObjPerms [kwCallObj deny_all] request view obj = .ok false := rfl

/-- C1: each of the three policy classes in its default configuration
(no predicate-list attribute overridden) returns false from both
`has_permission` and `has_object_permission` for every request — every
method and every identity, superusers and staff included. -/
theorem default_configs_deny_everything (request : Request) (view : View) (obj : Obj) :
    ({} : DABasePermission).has_permission request view = .ok false
  ∧ ({} : DABasePermission).has_object_permission request view obj = .ok false
  ∧ ({} : DARWBasePermission).has_permission request view = .ok false
  ∧ ({} : DARWBasePermission).has_object_permission request view obj = .ok false
  ∧ ({} : DACrudBasePermission).has_permission request view = .ok false
  ∧ ({} : DACrudBasePermission).has_object_permission request view obj = .ok false := by
  refine ⟨rfl, rfl, ?_, ?_, ?_, ?_⟩ <;>
    simp [DARWBasePermission.has_permission, DARWBasePermission.has_object_permission,
      DACrudBasePermission.has_permission, DACrudBasePermission.has_object_permission,
      DABasePermission.has_permission, DABasePermission.has_object_permission,
      evalPerms, evalObjPerms, kwCall, kwCallObj, deny_all]

/-- C4: `allow_staff` called on a request is true exactly when the
identity is authenticated and staff-flagged, `allow_superuser` exactly
when authenticated and superuser-flagged; concretely the staff-only
identity passes `allow_staff` but not `allow_superuser`, and the
superuser-only identity passes `allow_superuser` but not
`allow_staff`. -/
theorem allow_staff_superuser_flag_semantics (r : Request) :
    allow_staff [.vReq r] none = .ok (r.user.is_authenticated && r.user.is_staff)
  ∧ allow_superuser [.vReq r] none = .ok (r.user.is_authenticated && r.user.is_superuser)
  ∧ allow_staff [.vReq staffGet] none = .ok true
  ∧ allow_staff [.vReq superGet] none = .ok false
  ∧ allow_superuser [.vReq staffGet] none = .ok false
  ∧ allow_superuser [.vReq superGet] none = .ok true := by
  refine ⟨?_, ?_, rfl, rfl, rfl, rfl⟩ <;>
    cases h : r.user.is_authenticated <;>
      simp [allow_staff, allow_superuser, authenticated_users, selectRequest, truthy,
        allow_staff_body, allow_superuser_body, pyBindFirst, h]

/-- When every predicate of the list returns a boolean, the evaluator
returns true exactly when some predicate in the list returns true. -/
theorem evalPerms_true_iff (ps : List Pred) (request : Request) (view : View)
    (hok : ∀ p ∈ ps, p request view = .ok true ∨ p request view = .ok false) :
    evalPerms ps request view = .ok true ↔ ∃ p ∈ ps, p request view = .ok true := by
  induction ps with
  | nil => simp [evalPerms]
  | cons p ps ih =>
      have hrest : ∀ q ∈ ps, q request view = .ok true ∨ q request view = .ok false :=
        fun q hq => hok q (List.mem_cons_of_mem _ hq)
      rcases hok p (List.mem_cons_self _ _) with h | h
      · constructor
        · intro _
          exact ⟨p, List.mem_cons_self _ _, h⟩
        · intro _
          simp [evalPerms, h]
      · rw [show evalPerms (p :: ps) request view = evalPerms ps request view by
          simp [evalPerms, h]]
        rw [ih hrest]
        constructor
        · rintro ⟨q, hq, ht⟩
          exact ⟨q, List.mem_cons_of_mem _ hq, ht⟩
        · rintro ⟨q, hq, ht⟩
          rcases List.mem_cons.mp hq with hqp | hq
          · rw [hqp, h] at ht
            simp at ht
          · exact ⟨q, hq, ht⟩

/-- Short-circuit behaviour of the instrumented evaluator: when every
predicate of a prefix returns false and the next predicate returns
true, the result is true and exactly prefix-length-plus-one predicates
were invoked (so no later predicate runs). -/
theorem evalPermsCount_first_true (qs : List Pred) (p : Pred) (ps : List Pred)
    (request : Request) (view : View)
    (h₁ : ∀ q ∈ qs, q request view = .ok false)
    (hp : p request view = .ok true) :
    evalPerms (qs ++ p :: ps) request view = .ok true
    ∧ (evalPermsCount (qs ++ p :: ps) request view).2 = qs.length + 1 := by
  induction qs with
  | nil => simp [evalPerms, evalPermsCount, hp]
  | cons q qs ih =>
      have hq : q request view = .ok false := h₁ q (List.mem_cons_self _ _)
      have hrest := ih (fun r hr => h₁ r (List.mem_cons_of_mem _ hr))
      refine ⟨?_, ?_⟩
      · simp [evalPerms, hq, hrest.1]
      · simp [evalPermsCount, hq, hrest.2]

/-- When every predicate of the list returns false the evaluator
returns false. -/
theorem evalPerms_all_false (ps : List Pred) (request : Request) (view : View)
    (h : ∀ p ∈ ps, p request view = .ok false) :
    evalPerms ps request view = .ok false := by
  induction ps with
  | nil => rfl
  | cons p ps ih =>
      simp [evalPerms, h p (List.mem_cons_self _ _),
        ih (fun q hq => h q (List.mem_cons_of_mem _ hq))]

/-- The instrumented evaluator computes the same result as the
evaluator embedded in the classes. -/
theorem evalPermsCount_fst (ps : List Pred) (request : Request) (view : View) :
    (evalPermsCount ps request view).1 = evalPerms ps request view := by
  induction ps with
  | nil => rfl
  | cons p ps ih =>
      simp only [evalPermsCount, evalPerms]
      cases hp : p request view with
      | error e => rfl
      | ok b =>
          cases b with
          | true => rfl
          | false => simpa using ih

/-- C2: the permission-list evaluator embedded in
`DABasePermission.has_permission` returns true iff some predicate of
the sequence returns true on the given arguments; it iterates in
order, returning true at the first predicate returning true with no
later predicate invoked; it returns false when the sequence is
exhausted, and the empty sequence yields false. -/
theorem evaluator_or_semantics (ps : List Pred) (request : Request) (view : View)
    (hok : ∀ p ∈ ps, p request view = .ok true ∨ p request view = .ok false) :
    (evalPerms ps request view = .ok true ↔ ∃ p ∈ ps, p request view = .ok true)
  ∧ (∀ qs p rest, ps = qs ++ p :: rest →
      (∀ q ∈ qs, q request view = .ok false) → p request view = .ok true →
      evalPerms ps request view = .ok true
      ∧ (evalPermsCount ps request view).2 = qs.length + 1)
  ∧ ((∀ p ∈ ps, p request view = .ok false) → evalPerms ps request view = .ok false)
  ∧ evalPerms ([] : List Pred) request view = .ok false
  ∧ (evalPermsCount ps request view).1 = evalPerms ps request view := by
  refine ⟨evalPerms_true_iff ps request view hok, ?_, evalPerms_all_false ps request view,
    rfl, evalPermsCount_fst ps request view⟩
  intro qs p rest hsplit hqs hp
  rw [hsplit]
  exact evalPermsCount_first_true qs p rest request view hqs hp

/-- Witness for C2 at concrete inputs: over the list
`[deny_all, allow_all]` the evaluator returns true and invokes both
predicates; over `[allow_all, deny_all]` it returns true after
invoking only the first predicate; the empty list yields false. -/
theorem evaluator_or_semantics_witness :
    evalPerms [kwCall deny_all, kwCall allow_all] anonGet view0 = .ok true
  ∧ (evalPermsCount [kwCall deny_all, kwCall allow_all] anonGet view0).2 = 2
  ∧ (evalPermsCount [kwCall allow_all, kwCall deny_all] anonGet view0).2 = 1
  ∧ evalPerms ([] : List Pred) anonGet view0 = .ok false := by
  have hok₁ : ∀ p ∈ [kwCall deny_all, kwCall allow_all],
      p anonGet view0 = .ok true ∨ p anonGet view0 = .ok false := by
    intro p hp
    rcases List.mem_cons.mp hp with h | h
    · right
      rw [h]
      rfl
    · rcases List.mem_cons.mp h with h | h
      · left
        rw [h]
        rfl
      · exact absurd h (List.not_mem_nil p)
  have hok₂ : ∀ p ∈ [kwCall allow_all, kwCall deny_all],
      p anonGet view0 = .ok true ∨ p anonGet view0 = .ok false := by
    intro p hp
    rcases List.mem_cons.mp hp with h | h
    · left
      rw [h]
      rfl
    · rcases List.mem_cons.mp h with h | h
      · right
        rw [h]
        rfl
      · exact absurd h (List.not_mem_nil p)
  have h₁ := evaluator_or_semantics [kwCall deny_all, kwCall allow_all] anonGet view0 hok₁
  have h₂ := evaluator_or_semantics [kwCall allow_all, kwCall deny_all] anonGet view0 hok₂
  have hfirst₁ := h₁.2.1 [kwCall deny_all] (kwCall allow_all) [] rfl
    (by
      intro q hq
      rcases List.mem_cons.mp hq with h | h
      · rw [h]
        rfl
      · exact absurd h (List.not_mem_nil q))
    rfl
  have hfirst₂ := h₂.2.1 [] (kwCall allow_all) [kwCall deny_all] rfl
    (by
      intro q hq
      exact absurd hq (List.not_mem_nil q))
    rfl
  exact ⟨hfirst₁.1, hfirst₁.2, hfirst₂.2, h₁.2.2.2.1⟩

/-- C3: for every wrapped predicate, when a request is obtainable
(selected positionally or via the `request` keyword) and its identity
is not authenticated the guard returns false — independently of the
wrapped predicate, which is therefore never invoked; when no request
is obtainable it raises `TypeError` rather than returning a boolean;
when the selected identity is authenticated it returns the wrapped
predicate applied to the same arguments. -/
theorem authenticated_users_guard_spec (f : PyFn) (args : List PyVal)
    (kwreq : Option PyVal) (r : Request) :
    (selectRequest args kwreq = some (.vReq r) → r.user.is_authenticated = false →
        authenticated_users f args kwreq = .ok false)
  ∧ (selectRequest args kwreq = none →
        authenticated_users f args kwreq = .error .typeError)
  ∧ (selectRequest args kwreq = some (.vReq r) → r.user.is_authenticated = true →
        authenticated_users f args kwreq = f args kwreq) := by
  refine ⟨?_, ?_, ?_⟩
  · intro hsel hauth
    simp [authenticated_users, hsel, hauth]
  · intro hsel
    simp [authenticated_users, hsel]
  · intro hsel hauth
    simp [authenticated_users, hsel, hauth]

/-- Witness for C3 at concrete inputs: an unauthenticated request
passed by keyword yields false; a call with no arguments raises
`TypeError`; an authenticated positional request delegates to the
wrapped predicate. -/
theorem authenticated_users_guard_spec_witness :
    authenticated_users allow_all [] (some (.vReq anonGet)) = .ok false
  ∧ authenticated_users allow_all [] none = .error .typeError
  ∧ authenticated_users allow_all [.vReq staffGet] none
      = allow_all [.vReq staffGet] none := by
  refine ⟨?_, ?_, ?_⟩
  · exact (authenticated_users_guard_spec allow_all [] (some (.vReq anonGet)) anonGet).1
      rfl rfl
  · exact (authenticated_users_guard_spec allow_all [] none anonGet).2.1 rfl
  · exact (authenticated_users_guard_spec allow_all [.vReq staffGet] none staffGet).2.2
      rfl rfl

/-- C9: the guard selects the request by the truthiness, not the
presence, of the `request` keyword: a falsy keyword value is ignored
and the first positional argument becomes the request; with a falsy
keyword and no positional argument the `TypeError` is raised even
though a `request` keyword was supplied. -/
theorem falsy_request_keyword_ignored (f : PyFn) (v : PyVal) (r : Request)
    (rest : List PyVal) (hv : truthy v = false) :
    (authenticated_users f (.vReq r :: rest) (some v)
      = if r.user.is_authenticated then f (.vReq r :: rest) (some v) else .ok false)
  ∧ authenticated_users f [] (some v) = .error .typeError := by
  constructor
  · have hsel : selectRequest (.vReq r :: rest) (some v) = some (.vReq r) := by
      simp [selectRequest, hv]
    simp [authenticated_users, hsel]
  · have hsel : selectRequest [] (some v) = (none : Option PyVal) := by
      simp [selectRequest, hv]
    simp [authenticated_users, hsel]

/-- Witness for C9 at concrete inputs: with the `request` keyword
bound to the falsy none value, the positional staff request is used,
and with no positional argument the `TypeError` is raised. -/
theorem falsy_request_keyword_ignored_witness :
    (authenticated_users allow_staff_body [.vReq staffGet] (some .vNone)
      = if staffGet.user.is_authenticated
        then allow_staff_body [.vReq staffGet] (some .vNone)
        else .ok false)
  ∧ authenticated_users allow_staff_body [] (some .vNone) = .error .typeError :=
  falsy_request_keyword_ignored allow_staff_body .vNone staffGet [] rfl

/-- C5: `allow_authorized_key` raises `ImproperlyConfigured` whenever
`view.authorized_keys` is not a sequence, regardless of the request;
over a sequence it returns true exactly when the looked-up
Authorization header value is an element of the sequence (exact
equality); concretely, against keys ("K1", "K2") the header values
"K1" and "K2" are accepted and the near-match "K1x" is refused. -/
theorem allow_authorized_key_spec (request : Request) (view : View) :
    (∀ s, view.authorized_keys = .scalar s →
        allow_authorized_key request view = .error .improperlyConfigured)
  ∧ (∀ ks, view.authorized_keys = .seq ks →
        (allow_authorized_key request view = .ok true
          ↔ request.META_get "HTTP_AUTHORIZATION" ∈ ks))
  ∧ allow_authorized_key reqK1 viewK12 = .ok true
  ∧ allow_authorized_key reqK2 viewK12 = .ok true
  ∧ allow_authorized_key reqK1x viewK12 = .ok false := by
  refine ⟨?_, ?_, rfl, rfl, rfl⟩
  · intro s h
    simp [allow_authorized_key, h]
  · intro ks h
    have hcm : ks.contains (request.META_get "HTTP_AUTHORIZATION") = true
        ↔ request.META_get "HTTP_AUTHORIZATION" ∈ ks := by
      simp [List.contains]
    simp only [allow_authorized_key, h]
    cases hc : ks.contains (request.META_get "HTTP_AUTHORIZATION") with
    | true => simp [hc, hcm.mp hc]
    | false =>
        have hnm : ¬ request.META_get "HTTP_AUTHORIZATION" ∈ ks := by
          intro hm
          rw [hcm.mpr hm] at hc
          cases hc
        simp [hc, hnm]

/-- Witness for C5 at concrete inputs: a scalar `authorized_keys`
raises the configuration error, and over the sequence ("K1", "K2")
the result for header value "K1" is true via the membership
equivalence. -/
theorem allow_authorized_key_spec_witness :
    allow_authorized_key reqK1 viewScalar = .error .improperlyConfigured
  ∧ allow_authorized_key reqK1 viewK12 = .ok true := by
  constructor
  · exact (allow_authorized_key_spec reqK1 viewScalar).1 "K1" rfl
  · exact ((allow_authorized_key_spec reqK1 viewK12).2.1
      [some "K1", some "K2"] rfl).mpr (by simp [reqK1, Request.META_get])

/-- C10: with no Authorization header on the request,
`allow_authorized_key` does not raise over a sequence-valued
`authorized_keys`; the looked-up key is the none value and the result
is true exactly when the none value is itself an element of the
sequence. -/
theorem missing_header_none_membership (request : Request) (view : View)
    (ks : List (Option String))
    (hh : request.META_get "HTTP_AUTHORIZATION" = none)
    (hk : view.authorized_keys = .seq ks) :
    allow_authorized_key request view = .ok (ks.contains none)
  ∧ (allow_authorized_key request view = .ok true ↔ (none : Option String) ∈ ks) := by
  have hcm : ks.contains (none : Option String) = true ↔ (none : Option String) ∈ ks := by
    simp [List.contains]
  have heq : allow_authorized_key request view = .ok (ks.contains none) := by
    simp only [allow_authorized_key, hk, hh]
    cases hc : ks.contains (none : Option String) with
    | true => simp [hc]
    | false => simp [hc]
  refine ⟨heq, ?_⟩
  rw [heq]
  cases hc : ks.contains (none : Option String) with
  | true => simp [hcm.mp hc]
  | false =>
      have hnm : ¬ (none : Option String) ∈ ks := by
        intro hm
        rw [hcm.mpr hm] at hc
        cases hc
      simp [hnm]

/-- Witness for C10 at concrete inputs: a headerless request is
granted access by a key sequence containing the none value, and
refused by the empty key sequence. -/
theorem missing_header_none_membership_witness :
    allow_authorized_key anonGet viewNoneKey = .ok true
  ∧ allow_authorized_key anonGet view0 = .ok false := by
  constructor
  · exact (missing_header_none_membership anonGet viewNoneKey [Option.none]
      rfl rfl).2.mpr (by simp)
  · simpa using (missing_header_none_membership anonGet view0 [] rfl rfl).1

/-- An anonymous request with the unrecognized method TRACE. -/
def traceAnon : Request := { user := anonUser, method := "TRACE", META := [] }

/-- C6: `DARWBasePermission.has_permission` returns true whenever the
`rw_permissions` evaluation is true, regardless of method; otherwise
safe methods (GET, HEAD, OPTIONS) get the `read_permissions`
evaluation and every other method the `write_permissions` evaluation;
concretely, with only `write_permissions = [allow_staff]` overridden a
GET by the staff identity is denied while a POST by the same identity
is allowed. -/
theorem darw_method_dispatch (cfg : DARWBasePermission) (request : Request)
    (view : View) :
    (evalPerms cfg.rw_permissions request view = .ok true →
        cfg.has_permission request view = .ok true)
  ∧ (evalPerms cfg.rw_permissions request view = .ok false →
        cfg.has_permission request view =
          if SAFE_METHODS.contains request.method
          then evalPerms cfg.read_permissions request view
          else evalPerms cfg.write_permissions request view)
  ∧ ({ write_permissions := [kwCall allow_staff] } : DARWBasePermission).has_permission
      staffGet view0 = .ok false
  ∧ ({ write_permissions := [kwCall allow_staff] } : DARWBasePermission).has_permission
      staffPost view0 = .ok true := by
  refine ⟨?_, ?_, rfl, rfl⟩
  · intro h
    simp [DARWBasePermission.has_permission, DABasePermission.has_permission, h]
  · intro h
    simp [DARWBasePermission.has_permission, DABasePermission.has_permission, h]

/-- Witness for C6 at concrete inputs: an `allow_all` override in
`rw_permissions` grants an anonymous request, and the default
configuration dispatches a POST to the write list. -/
theorem darw_method_dispatch_witness :
    ({ rw_permissions := [kwCall allow_all] } : DARWBasePermission).has_permission
      anonGet view0 = .ok true
  ∧ ({} : DARWBasePermission).has_permission staffPost view0 =
      (if SAFE_METHODS.contains staffPost.method
       then evalPerms ({} : DARWBasePermission).read_permissions staffPost view0
       else evalPerms ({} : DARWBasePermission).write_permissions staffPost view0) := by
  constructor
  · exact (darw_method_dispatch { rw_permissions := [kwCall allow_all] } anonGet view0).1 rfl
  · exact (darw_method_dispatch {} staffPost view0).2.1 rfl

/-- C7: `DACrudBasePermission.has_permission` applies the
`rw_permissions` override, then dispatches by exact method — safe
methods to `read_permissions`, PUT/PATCH to `change_permissions`,
POST to `add_permissions`, DELETE to `delete_permissions` — and any
other method falls through to false; concretely, with only
`add_permissions = [allow_staff]` overridden a staff POST succeeds
while a staff PUT and a staff GET are denied, and a TRACE request is
denied even when every bucket list would allow it. -/
theorem dacrud_method_dispatch (cfg : DACrudBasePermission) (request : Request)
    (view : View) :
    (evalPerms cfg.rw_permissions request view = .ok true →
        cfg.has_permission request view = .ok true)
  ∧ (evalPerms cfg.rw_permissions request view = .ok false →
        cfg.has_permission request view =
          if SAFE_METHODS.contains request.method then
            evalPerms cfg.read_permissions request view
          else if ["PUT", "PATCH"].contains request.method then
            evalPerms cfg.change_permissions request view
          else if request.method = "POST" then
            evalPerms cfg.add_permissions request view
          else if request.method = "DELETE" then
            evalPerms cfg.delete_permissions request view
          else .ok false)
  ∧ ({ add_permissions := [kwCall allow_staff] } : DACrudBasePermission).has_permission
      staffPost view0 = .ok true
  ∧ ({ add_permissions := [kwCall allow_staff] } : DACrudBasePermission).has_permission
      staffPut view0 = .ok false
  ∧ ({ add_permissions := [kwCall allow_staff] } : DACrudBasePermission).has_permission
      staffGet view0 = .ok false
  ∧ ({ read_permissions := [kwCall allow_all], add_permissions := [kwCall allow_all],
       change_permissions := [kwCall allow_all], delete_permissions := [kwCall allow_all] }
      : DACrudBasePermission).has_permission traceAnon view0 = .ok false := by
  refine ⟨?_, ?_, rfl, rfl, rfl, rfl⟩
  · intro h
    simp [DACrudBasePermission.has_permission, DABasePermission.has_permission, h]
  · intro h
    simp [DACrudBasePermission.has_permission, DABasePermission.has_permission, h]

/-- Witness for C7 at concrete inputs: an `allow_all` override in
`rw_permissions` grants an anonymous request, and the default
configuration dispatches a PUT through the exact-method buckets. -/
theorem dacrud_method_dispatch_witness :
    ({ rw_permissions := [kwCall allow_all] } : DACrudBasePermission).has_permission
      anonGet view0 = .ok true
  ∧ ({} : DACrudBasePermission).has_permission staffPut view0 =
      (if SAFE_METHODS.contains staffPut.method then
         evalPerms ({} : DACrudBasePermission).read_permissions staffPut view0
       else if ["PUT", "PATCH"].contains staffPut.method then
         evalPerms ({} : DACrudBasePermission).change_permissions staffPut view0
       else if staffPut.method = "POST" then
         evalPerms ({} : DACrudBasePermission).add_permissions staffPut view0
       else if staffPut.method = "DELETE" then
         evalPerms ({} : DACrudBasePermission).delete_permissions staffPut view0
       else .ok false) := by
  constructor
  · exact (dacrud_method_dispatch { rw_permissions := [kwCall allow_all] } anonGet view0).1 rfl
  · exact (dacrud_method_dispatch {} staffPut view0).2.1 rfl

/-- Partial application of the target object, turning an object-level
predicate into the view-level predicate it acts as once the object is
fixed. -/
def applyObj (obj : Obj) (p : OPred) : Pred :=
  fun request view => p request view obj

/-- The object-level evaluator is the view-level evaluator over the
object-applied predicates. -/
theorem evalObjPerms_eq_map (ps : List OPred) (request : Request) (view : View)
    (obj : Obj) :
    evalObjPerms ps request view obj
      = evalPerms (ps.map (applyObj obj)) request view := by
  induction ps with
  | nil => rfl
  | cons p ps ih =>
      simp only [evalObjPerms, List.map, evalPerms, applyObj]
      cases hp : p request view obj with
      | error e => rfl
      | ok b =>
          cases b with
          | true => rfl
          | false => exact ih

/-- C8: for each of the three policy classes, the object-level check
computes the same dispatch function as the view-level check of that class,
with every predicate list replaced by its object_-prefixed
counterpart and the target object passed as an additional argument to
every predicate of the selected list. -/
theorem object_checks_mirror_dispatch (da : DABasePermission)
    (rw : DARWBasePermission) (cr : DACrudBasePermission)
    (request : Request) (view : View) (obj : Obj) :
    da.has_object_permission request view obj
      = DABasePermission.has_permission
          { rw_permissions := da.object_rw_permissions.map (applyObj obj) } request view
  ∧ rw.has_object_permission request view obj
      = DARWBasePermission.has_permission
          { rw_permissions := rw.object_rw_permissions.map (applyObj obj),
            read_permissions := rw.object_read_permissions.map (applyObj obj),
            write_permissions := rw.object_write_permissions.map (applyObj obj) }
          request view
  ∧ cr.has_object_permission request view obj
      = DACrudBasePermission.has_permission
          { rw_permissions := cr.object_rw_permissions.map (applyObj obj),
            read_permissions := cr.object_read_permissions.map (applyObj obj),
            add_permissions := cr.object_add_permissions.map (applyObj obj),
            change_permissions := cr.object_change_permissions.map (applyObj obj),
            delete_permissions := cr.object_delete_permissions.map (applyObj obj) }
          request view := by
  refine ⟨?_, ?_, ?_⟩
  · simp [DABasePermission.has_object_permission, DABasePermission.has_permission,
      evalObjPerms_eq_map]
  · simp [DARWBasePermission.has_object_permission, DARWBasePermission.has_permission,
      DABasePermission.has_object_permission, DABasePermission.has_permission,
      evalObjPerms_eq_map]
  · simp [DACrudBasePermission.has_object_permission, DACrudBasePermission.has_permission,
      DABasePermission.has_object_permission, DABasePermission.has_permission,
      evalObjPerms_eq_map]
